import Mathlib

/-!
Shallow embedding of the chess-tui rules engine.  The functions of
src/game_logic/game.rs (Game, GameState, execute_move, promote_piece,
handle_cell_click, update_game_state, switch_player_turn), src/handler.rs
(the board-click portion of handle_mouse_events), src/app.rs (App::restart)
and src/game_logic/opponent.rs (Opponent::new) are transcribed directly.
Components of the repository that are not part of the provided sources
(the GameBoard, Coord, UI and per-piece movement modules) are modelled from
the specification; each such definition carries a doc comment starting with
"Modelled from the spec:".

Coordinate convention: rows grow downward and the engine keeps the side to
move at the bottom of the grid, so the mover always travels toward row 0
(this is why Game::execute_move removes the passed pawn of an en-passant
capture at row to.row + 1).  The board flip between plies is, per the spec
(section 4.2), "a pure presentation transform ... logically it is
board-state identical", and is therefore modelled as the identity on the
logical board.
-/

inductive PieceColor where
  | White
  | Black
deriving DecidableEq, Repr

inductive PieceType where
  | Pawn
  | Knight
  | Bishop
  | Rook
  | Queen
  | King
deriving DecidableEq, Repr

def oppositeColor : PieceColor → PieceColor
  | PieceColor.White => PieceColor.Black
  | PieceColor.Black => PieceColor.White

/-- Modelled from the spec: `Coord` (sections 3 and 4.1), a (row, col)
address into the 8 by 8 grid with a distinguished `undefined` sentinel;
`is_valid` holds iff both components are in [0,7]. -/
structure Coord where
  row : Nat
  col : Nat
deriving DecidableEq, Repr

def Coord.undefined : Coord := ⟨255, 255⟩

def Coord.is_valid (c : Coord) : Bool := decide (c.row < 8) && decide (c.col < 8)

/-- Modelled from the spec: the 8 by 8 placement of pieces (section 3);
each cell holds nothing or a (PieceType, PieceColor) pair. -/
def Board : Type := Fin 8 → Fin 8 → Option (PieceType × PieceColor)

def boardGet (b : Board) (r c : Nat) : Option (PieceType × PieceColor) :=
  if h : r < 8 ∧ c < 8 then b ⟨r, h.1⟩ ⟨c, h.2⟩ else none

def boardGetC (b : Board) (c : Coord) : Option (PieceType × PieceColor) :=
  boardGet b c.row c.col

def boardSet (b : Board) (r c : Nat) (p : Option (PieceType × PieceColor)) : Board :=
  fun i j => if i.val = r ∧ j.val = c then p else b i j

/-- The 64 coordinates of the grid, used to realise set-valued results of the
move generators as concrete lists. -/
def allCoords : List Coord :=
  (List.range 64).map fun n => ⟨n / 8, n % 8⟩

/-- One step of length `k` from `c` in direction (`sr`, `sc`). -/
def stepCoord (c : Coord) (sr sc : Int) (k : Nat) : Coord :=
  ⟨((c.row : Int) + sr * k).toNat, ((c.col : Int) + sc * k).toNat⟩

def intSign (d : Int) : Int := if 0 < d then 1 else if d < 0 then -1 else 0

/-- Modelled from the spec: sliding pieces "slide along their respective
directions until blocked by any piece" (section 4.3): every square strictly
between `fm` and `to` (aligned straight or diagonally) is empty. -/
def clearPath (b : Board) (fm dst : Coord) : Bool :=
  let dr : Int := (dst.row : Int) - (fm.row : Int)
  let dc : Int := (dst.col : Int) - (fm.col : Int)
  let steps : Nat := max dr.natAbs dc.natAbs
  (List.range (steps - 1)).all fun k =>
    decide (boardGetC b (stepCoord fm (intSign dr) (intSign dc) (k + 1)) = none)

/-- Modelled from the spec: per-piece pseudo-legal reachability (section 4.3,
missing pieces module).  `bottom` is the side to move: its pawns travel
toward row 0, the opposite color's pawns toward row 7 (the engine keeps the
side to move at the bottom of the grid).  Destinations occupied by a piece of
the same color are always excluded.  The en-passant and castling candidates
are injected separately by the special-move resolver (section 4.6), not
here. -/
def pseudoCanReach (bottom : PieceColor) (b : Board) (p : PieceType × PieceColor)
    (fm dst : Coord) : Bool :=
  let dr : Int := (dst.row : Int) - (fm.row : Int)
  let dc : Int := (dst.col : Int) - (fm.col : Int)
  let friendlyAtTo : Bool := (boardGetC b dst).any fun q => decide (q.2 = p.2)
  let enemyAtTo : Bool := (boardGetC b dst).any fun q => decide (q.2 ≠ p.2)
  let emptyAtTo : Bool := decide (boardGetC b dst = none)
  if !dst.is_valid || friendlyAtTo then false
  else
    match p.1 with
    | PieceType.Knight =>
        decide ((dr.natAbs = 1 ∧ dc.natAbs = 2) ∨ (dr.natAbs = 2 ∧ dc.natAbs = 1))
    | PieceType.King => decide (max dr.natAbs dc.natAbs = 1)
    | PieceType.Rook =>
        decide ((dr = 0 ∧ dc ≠ 0) ∨ (dr ≠ 0 ∧ dc = 0)) && clearPath b fm dst
    | PieceType.Bishop =>
        decide (dr.natAbs = dc.natAbs ∧ dr ≠ 0) && clearPath b fm dst
    | PieceType.Queen =>
        (decide ((dr = 0 ∧ dc ≠ 0) ∨ (dr ≠ 0 ∧ dc = 0)) ||
          decide (dr.natAbs = dc.natAbs ∧ dr ≠ 0)) && clearPath b fm dst
    | PieceType.Pawn =>
        let dir : Int := if p.2 = bottom then -1 else 1
        let startRow : Nat := if p.2 = bottom then 6 else 1
        (decide (dc = 0) && emptyAtTo &&
          (decide (dr = dir) ||
            (decide (dr = 2 * dir) && decide (fm.row = startRow) &&
              decide (boardGetC b (stepCoord fm dir 0 1) = none)))) ||
        (decide (dc.natAbs = 1) && decide (dr = dir) && enemyAtTo)

/-- Modelled from the spec: `is_attacked` (section 4.5), true iff any piece of
`byColor` has the target square in its pseudo-legal destination set.  Per the
spec this does not go through the legality filter nor through the special-move
injections, to avoid recursion. -/
def isAttacked (bottom : PieceColor) (b : Board) (target : Coord)
    (byColor : PieceColor) : Bool :=
  allCoords.any fun fm =>
    match boardGetC b fm with
    | some p => decide (p.2 = byColor) && pseudoCanReach bottom b p fm target
    | none => false

def findKing (b : Board) (color : PieceColor) : Option Coord :=
  allCoords.find? fun c => decide (boardGetC b c = some (PieceType.King, color))

structure PieceMove where
  piece_type : PieceType
  piece_color : PieceColor
  from_sq : Coord
  to_sq : Coord
deriving DecidableEq, Repr

/-- Modelled from the spec: the GameBoard record (section 3): the grid, the
ordered move log, the ordered snapshot log and the halfmove counter (the
taken-pieces list only backs `add_piece_to_taken_pieces`). -/
structure GameBoard where
  board : Board
  move_history : List PieceMove
  board_history : List Board
  consecutive_non_pawn_or_capture : Nat
  taken_pieces : List PieceType

def GameBoard.get_piece_type (gb : GameBoard) (c : Coord) : Option PieceType :=
  (boardGetC gb.board c).map Prod.fst

def GameBoard.get_piece_color (gb : GameBoard) (c : Coord) : Option PieceColor :=
  (boardGetC gb.board c).map Prod.snd

/-- Modelled from the spec: en-passant eligibility (section 4.6): the piece at
`fm` is a pawn of the side to move, `to` is the empty square diagonally
forward (the mover travels toward row 0), the passed enemy pawn stands one
rank behind `to` (at row to.row + 1, same column), and the last entry of the
move history is that pawn's two-square advance onto that square. -/
def GameBoard.is_latest_move_en_passant (gb : GameBoard) (player : PieceColor)
    (fm dst : Coord) : Bool :=
  decide (boardGetC gb.board fm = some (PieceType.Pawn, player)) &&
  decide (boardGetC gb.board dst = none) &&
  decide (dst.row + 1 = fm.row) &&
  decide (dst.col = fm.col + 1 ∨ fm.col = dst.col + 1) &&
  decide (boardGetC gb.board ⟨dst.row + 1, dst.col⟩ =
    some (PieceType.Pawn, oppositeColor player)) &&
  (match gb.move_history.getLast? with
   | some m =>
       decide (m.piece_type = PieceType.Pawn ∧ m.piece_color = oppositeColor player ∧
         m.to_sq = ⟨dst.row + 1, dst.col⟩ ∧
         (m.to_sq.row = m.from_sq.row + 2 ∨ m.from_sq.row = m.to_sq.row + 2))
   | none => false)

/-- Modelled from the spec: castling eligibility (section 4.6): the piece at
`fm` is the mover's king and has never moved, the relevant rook sits at `to`
and has never moved, all squares between them are empty, and the king does
not start on, pass through or land on an attacked square.  The engine encodes
the castling intent as (king's square, rook's square): Game::execute_move
empties `to` and derives the king's landing square two columns from `fm` in
the direction of the displacement, so `to` is the rook's corner square.
"Never moved" from the default starting position puts both pieces on the back
rank of the mover (row 7), the rook in a corner and the king on its home
column (column 4 for White, column 3 for Black, whose frame is the rotated
one). -/
def GameBoard.is_latest_move_castling (gb : GameBoard) (player : PieceColor)
    (fm dst : Coord) : Bool :=
  decide (boardGetC gb.board fm = some (PieceType.King, player)) &&
  decide (boardGetC gb.board dst = some (PieceType.Rook, player)) &&
  decide (fm.row = 7 ∧ dst.row = 7) &&
  decide ((fm.col = 3 ∨ fm.col = 4) ∧ (dst.col = 0 ∨ dst.col = 7)) &&
  ((List.range 8).all fun c =>
    !(decide (min fm.col dst.col < c ∧ c < max fm.col dst.col)) ||
      decide (boardGetC gb.board ⟨7, c⟩ = none)) &&
  (gb.move_history.all fun m => decide (m.from_sq ≠ fm)) &&
  (gb.move_history.all fun m => decide (m.from_sq ≠ dst)) &&
  ((List.range 3).all fun k =>
    !(isAttacked player gb.board
        ⟨7, ((fm.col : Int) + (if dst.col < fm.col then -1 else 1) * k).toNat⟩
        (oppositeColor player)))

/-- Modelled from the spec: promotion detection (section 4.6): the latest
move-history entry is a pawn move whose destination reaches the back rank
(row 0, the far rank from the mover's perspective). -/
def GameBoard.is_latest_move_promotion (gb : GameBoard) : Bool :=
  match gb.move_history.getLast? with
  | some m => decide (m.piece_type = PieceType.Pawn ∧ m.to_sq.row = 0)
  | none => false

/-- Board-mutation core of Game::execute_move (game.rs lines 207 to 246):
the optional en-passant removal, then either the castling relocation of king
and rook or the plain relocation, then the clearing of `fm`.  The legality
filter (section 4.4) reuses it as its scratch simulation, "including any
special-move side effects it would trigger". -/
def GameBoard.apply_move_board (gb : GameBoard) (player : PieceColor)
    (fm dst : Coord) : Board :=
  let b1 := if gb.is_latest_move_en_passant player fm dst
            then boardSet gb.board (dst.row + 1) dst.col none else gb.board
  if gb.is_latest_move_castling player fm dst then
    let distance : Int := (fm.col : Int) - (dst.col : Int)
    let direction_x : Int := if 0 < distance then -1 else 1
    let col_king : Int := (fm.col : Int) + direction_x * 2
    let col_rook : Int := if 0 < distance then col_king + 1 else col_king - 1
    let b2 := boardSet b1 dst.row col_king.toNat (boardGetC b1 fm)
    let b3 := boardSet b2 dst.row col_rook.toNat (some (PieceType.Rook, player))
    let b4 := boardSet b3 dst.row dst.col none
    boardSet b4 fm.row fm.col none
  else
    let b2 := boardSet b1 dst.row dst.col (boardGetC b1 fm)
    boardSet b2 fm.row fm.col none

/-- Modelled from the spec: `authorized_positions` (section 4.4): pseudo-legal
destinations of the piece at `fm` (with the spec's injected en-passant and
castling candidates), each simulated on a scratch board and rejected if it
leaves the mover's king attacked; empty if `fm` holds no piece or a piece of
the wrong color. -/
def GameBoard.get_authorized_positions (gb : GameBoard) (player : PieceColor)
    (fm : Coord) : List Coord :=
  match boardGetC gb.board fm with
  | some p =>
      if p.2 = player then
        ((allCoords.filter fun dst =>
            pseudoCanReach player gb.board p fm dst ||
            gb.is_latest_move_en_passant player fm dst ||
            gb.is_latest_move_castling player fm dst).filter fun dst =>
          let b2 := gb.apply_move_board player fm dst
          match findKing b2 player with
          | some k => !(isAttacked player b2 k (oppositeColor player))
          | none => true)
      else []
  | none => []

/-- Modelled from the spec: `is_in_check` (section 4.5). -/
def GameBoard.is_in_check (gb : GameBoard) (color : PieceColor) : Bool :=
  match findKing gb.board color with
  | some k => isAttacked color gb.board k (oppositeColor color)
  | none => false

def GameBoard.has_no_legal_move (gb : GameBoard) (color : PieceColor) : Bool :=
  allCoords.all fun c => (gb.get_authorized_positions color c).isEmpty

/-- Modelled from the spec: `is_checkmate` (section 4.5): in check and no
piece of the color has any nonempty authorized positions. -/
def GameBoard.is_checkmate (gb : GameBoard) (color : PieceColor) : Bool :=
  gb.is_in_check color && gb.has_no_legal_move color

def fiftyMoveThreshold : Nat := 50

/-- Modelled from the spec: `is_draw` (section 4.5): stalemate (zero legal
moves while not in check) or the halfmove counter reaching the fifty-move
threshold. -/
def GameBoard.is_draw (gb : GameBoard) (color : PieceColor) : Bool :=
  (!(gb.is_in_check color) && gb.has_no_legal_move color) ||
    decide (fiftyMoveThreshold ≤ gb.consecutive_non_pawn_or_capture)

/-- Modelled from the spec: the halfmove counter update (section 4.2): reset
to 0 on a pawn move or a capture, incremented otherwise. -/
def GameBoard.increment_consecutive_non_pawn_or_capture (gb : GameBoard)
    (moved : PieceType) (captured : Option PieceType) : Nat :=
  if moved = PieceType.Pawn ∨ captured.isSome then 0
  else gb.consecutive_non_pawn_or_capture + 1

/-- Modelled from the spec: record a captured enemy piece. -/
def GameBoard.add_piece_to_taken_pieces (gb : GameBoard) (_fm dst : Coord)
    (player : PieceColor) : List PieceType :=
  match boardGetC gb.board dst with
  | some (pt, c) => if c ≠ player then gb.taken_pieces ++ [pt] else gb.taken_pieces
  | none => gb.taken_pieces

/-- Modelled from the spec: `flip_orientation` (section 4.2) is "a pure
presentation transform; logically it is board-state identical", so it is the
identity on the logical GameBoard. -/
def GameBoard.flip_the_board (gb : GameBoard) : GameBoard := gb

def backRank (j : Fin 8) : PieceType :=
  match j.val with
  | 0 => PieceType.Rook
  | 1 => PieceType.Knight
  | 2 => PieceType.Bishop
  | 3 => PieceType.Queen
  | 4 => PieceType.King
  | 5 => PieceType.Bishop
  | 6 => PieceType.Knight
  | _ => PieceType.Rook

/-- The default starting position: Black's home ranks at rows 0 and 1,
White's at rows 6 and 7. -/
def initialBoard : Board := fun i j =>
  match i.val with
  | 0 => some (backRank j, PieceColor.Black)
  | 1 => some (PieceType.Pawn, PieceColor.Black)
  | 6 => some (PieceType.Pawn, PieceColor.White)
  | 7 => some (backRank j, PieceColor.White)
  | _ => none

/-- Modelled from the spec: the default GameBoard holds the starting position
and its snapshot log holds the initial position (section 3: one snapshot per
ply plus the initial position). -/
def GameBoard.default : GameBoard :=
  { board := initialBoard
    move_history := []
    board_history := [initialBoard]
    consecutive_non_pawn_or_capture := 0
    taken_pieces := [] }

/-- Modelled from the spec: the cursor/selection state the engine reads
(the terminal-geometry fields of the real UI struct are presentation-only
and omitted). -/
structure UI where
  cursor_coordinates : Coord
  selected_coordinates : Coord
  old_cursor_position : Coord
  promotion_cursor : Int
  mouse_used : Bool
deriving DecidableEq, Repr

def UI.default : UI :=
  { cursor_coordinates := ⟨4, 4⟩
    selected_coordinates := Coord.undefined
    old_cursor_position := Coord.undefined
    promotion_cursor := 0
    mouse_used := false }

/-- Modelled from the spec: a cell is selected iff the selection is not the
undefined sentinel (section 4.1). -/
def UI.is_cell_selected (u : UI) : Bool :=
  decide (u.selected_coordinates ≠ Coord.undefined)

def UI.unselect_cell (u : UI) : UI :=
  { u with selected_coordinates := Coord.undefined }

/-- Modelled from the spec: cursor repositioning over the authorized set is a
presentation concern; the cursor lands on the first authorized position when
one exists. -/
def UI.move_selected_piece_cursor (u : UI) (auth : List Coord) : UI :=
  { u with cursor_coordinates := auth.headD u.cursor_coordinates }

inductive GameState where
  | Checkmate
  | Draw
  | Playing
  | Promotion
deriving DecidableEq, Repr

structure Game where
  game_board : GameBoard
  ui : UI
  player_turn : PieceColor
  game_state : GameState

def Game.default : Game :=
  { game_board := GameBoard.default
    ui := UI.default
    player_turn := PieceColor.White
    game_state := GameState.Playing }

/-- Game::switch_player_turn (game.rs lines 67 to 72). -/
def Game.switch_player_turn (g : Game) : Game :=
  match g.player_turn with
  | PieceColor.White => { g with player_turn := PieceColor.Black }
  | PieceColor.Black => { g with player_turn := PieceColor.White }

/-- Game::update_game_state (game.rs lines 91 to 99): Checkmate, else Draw,
else Promotion; otherwise the state is left as it is. -/
def Game.update_game_state (g : Game) : Game :=
  if g.game_board.is_checkmate g.player_turn then
    { g with game_state := GameState.Checkmate }
  else if g.game_board.is_draw g.player_turn then
    { g with game_state := GameState.Draw }
  else if g.game_board.is_latest_move_promotion then
    { g with game_state := GameState.Promotion }
  else g

/-- The promotion-cursor match of Game::promote_piece (game.rs lines 152 to
158); `none` models the aborting branch for an out-of-range selector. -/
def promotionPieceOf (c : Int) : Option PieceType :=
  if c = 0 then some PieceType.Queen
  else if c = 1 then some PieceType.Rook
  else if c = 2 then some PieceType.Bishop
  else if c = 3 then some PieceType.Knight
  else none

/-- Game::promote_piece (game.rs lines 150 to 182): rewrite the promoted
square and the last move-history entry, pop then push the last board
snapshot, reset the state and the selector, and flip the board when the
position is not terminal.  The result is `none` exactly when the aborting
branch for an out-of-range selector is reached. -/
def Game.promote_piece (g : Game) : Option Game :=
  let updated : Option Game :=
    match g.game_board.move_history.getLast? with
    | none => some g
    | some last_move =>
      match promotionPieceOf g.ui.promotion_cursor with
      | none => none
      | some new_piece =>
        let board1 :=
          match g.game_board.get_piece_color last_move.to_sq with
          | some piece_color =>
              boardSet g.game_board.board last_move.to_sq.row last_move.to_sq.col
                (some (new_piece, piece_color))
          | none => g.game_board.board
        let mh := g.game_board.move_history.dropLast ++
          [{ last_move with piece_type := new_piece }]
        let bh := g.game_board.board_history.dropLast ++ [board1]
        some { g with game_board :=
          { g.game_board with board := board1, move_history := mh, board_history := bh } }
  updated.map fun g1 =>
    let g2 := { g1 with game_state := GameState.Playing,
                        ui := { g1.ui with promotion_cursor := 0 } }
    if !(g2.game_board.is_draw g2.player_turn) &&
        !(g2.game_board.is_checkmate g2.player_turn) then
      { g2 with game_board := g2.game_board.flip_the_board }
    else g2

/-- Game::execute_move (game.rs lines 186 to 257): reject silently when a
coordinate is invalid or `fm` holds no piece; otherwise update the halfmove
counter and the taken pieces, apply the board mutation (with the en-passant
and castling side effects) and append one entry to each history. -/
def Game.execute_move (g : Game) (fm dst : Coord) : Game :=
  if !fm.is_valid || !dst.is_valid then g
  else
    match g.game_board.get_piece_type fm with
    | none => g
    | some piece_type_from =>
      let piece_type_to := g.game_board.get_piece_type dst
      let counter := g.game_board.increment_consecutive_non_pawn_or_capture
        piece_type_from piece_type_to
      let taken := g.game_board.add_piece_to_taken_pieces fm dst g.player_turn
      let board1 := g.game_board.apply_move_board g.player_turn fm dst
      { g with game_board :=
        { g.game_board with
          board := board1
          consecutive_non_pawn_or_capture := counter
          taken_pieces := taken
          move_history := g.game_board.move_history ++
            [{ piece_type := piece_type_from
               piece_color := g.player_turn
               from_sq := fm
               to_sq := dst }]
          board_history := g.game_board.board_history ++ [board1] } }

/-- Game::select_cell (game.rs lines 127 to 148). -/
def Game.select_cell (g : Game) : Game :=
  let auth := g.game_board.get_authorized_positions g.player_turn g.ui.cursor_coordinates
  if auth.isEmpty then g
  else
    match g.game_board.get_piece_color g.ui.cursor_coordinates with
    | some piece_color =>
        if piece_color = g.player_turn then
          { g with ui :=
            (({ g.ui with selected_coordinates := g.ui.cursor_coordinates,
                          old_cursor_position := g.ui.cursor_coordinates
              } : UI).move_selected_piece_cursor auth) }
        else g
    | none => g

/-- Game::already_selected_cell_action (game.rs lines 105 to 125): apply the
move from the selected cell to the cursor, unselect, switch the turn, set
Draw early when drawn, and flip the board unless an unresolved promotion is
pending. -/
def Game.already_selected_cell_action (g : Game) : Game :=
  if g.ui.cursor_coordinates.is_valid then
    let g1 := g.execute_move g.ui.selected_coordinates g.ui.cursor_coordinates
    let g2 := { g1 with ui := g1.ui.unselect_cell }
    let g3 := g2.switch_player_turn
    let g4 := if g3.game_board.is_draw g3.player_turn then
                { g3 with game_state := GameState.Draw }
              else g3
    if !(g4.game_board.is_latest_move_promotion) ||
        g4.game_board.is_draw g4.player_turn ||
        g4.game_board.is_checkmate g4.player_turn then
      { g4 with game_board := g4.game_board.flip_the_board }
    else g4
  else g

/-- Game::handle_cell_click (game.rs lines 75 to 89): promotion choice when
in Promotion, the selection or move action when not terminal, then the state
recomputation. -/
def Game.handle_cell_click (g : Game) : Option Game :=
  let g1 : Option Game :=
    if g.game_state = GameState.Promotion then g.promote_piece
    else if ¬(g.game_state = GameState.Checkmate) ∧ ¬(g.game_state = GameState.Draw) then
      some (if g.ui.is_cell_selected then g.already_selected_cell_action else g.select_cell)
    else some g
  g1.map Game.update_game_state

/-- The board-click portion of handle_mouse_events (handler.rs lines 163 to
215) for a game outside the Promotion state: an early return in Checkmate or
Draw; otherwise the click at `coords` is accepted (cursor set and the cell
click handled) only when `coords` is an authorized destination of the
selected cell and the selected cell holds a piece, and otherwise merely
re-targets the selection. -/
def Game.mouse_board_click (g : Game) (coords : Coord) : Option Game :=
  if g.game_state = GameState.Checkmate ∨ g.game_state = GameState.Draw then some g
  else
    let auth := g.game_board.get_authorized_positions g.player_turn
      g.ui.selected_coordinates
    let piece_color := g.game_board.get_piece_color g.ui.selected_coordinates
    if coords ∈ auth ∧ piece_color.isSome then
      Game.handle_cell_click
        { g with ui := { g.ui with mouse_used := true, cursor_coordinates := coords } }
    else
      some { g with ui := { g.ui with mouse_used := true, selected_coordinates := coords } }

inductive Popups where
  | ColorSelection
  | Help
deriving DecidableEq, Repr

structure App where
  running : Bool
  game : Game
  current_popup : Option Popups
  selected_color : Option PieceColor
  menu_cursor : Nat

/-- App::restart (app.rs lines 119 to 122): the whole game is replaced by the
default starting game. -/
def App.restart (a : App) : App :=
  { a with game := Game.default, current_popup := none }

structure Opponent where
  opponent_will_move : Bool
  color : PieceColor
  game_started : Bool
deriving DecidableEq, Repr

/-- Opponent::new (opponent.rs lines 48 to 77); the logging calls carry no
state and are dropped. -/
def Opponent.new (color : Option PieceColor) : Opponent :=
  let color := match color with
    | some color => color
    | none => PieceColor.Black
  let opponent_will_move := match color with
    | PieceColor.White => true
    | PieceColor.Black => false
  { opponent_will_move := opponent_will_move
    color := color
    game_started := false }

/-- Position for a White kingside castle: king on its home square (7,4),
rook on the corner (7,7), the squares between them empty, Black's king far
away on (0,4). -/
def boardCastleK : Board := fun i j =>
  match i.val, j.val with
  | 7, 4 => some (PieceType.King, PieceColor.White)
  | 7, 7 => some (PieceType.Rook, PieceColor.White)
  | 0, 4 => some (PieceType.King, PieceColor.Black)
  | _, _ => none

def gameCastleK : Game :=
  { game_board :=
      { board := boardCastleK
        move_history := []
        board_history := [boardCastleK]
        consecutive_non_pawn_or_capture := 0
        taken_pieces := [] }
    ui := UI.default
    player_turn := PieceColor.White
    game_state := GameState.Playing }

/-- Position for a White queenside castle: king on (7,4), rook on (7,0). -/
def boardCastleQ : Board := fun i j =>
  match i.val, j.val with
  | 7, 4 => some (PieceType.King, PieceColor.White)
  | 7, 0 => some (PieceType.Rook, PieceColor.White)
  | 0, 4 => some (PieceType.King, PieceColor.Black)
  | _, _ => none

def gameCastleQ : Game :=
  { game_board :=
      { board := boardCastleQ
        move_history := []
        board_history := [boardCastleQ]
        consecutive_non_pawn_or_capture := 0
        taken_pieces := [] }
    ui := UI.default
    player_turn := PieceColor.White
    game_state := GameState.Playing }

/-- Position for an en-passant capture by White: White pawn on (3,3), the
Black pawn that just advanced two squares beside it on (3,4). -/
def boardEP : Board := fun i j =>
  match i.val, j.val with
  | 3, 3 => some (PieceType.Pawn, PieceColor.White)
  | 3, 4 => some (PieceType.Pawn, PieceColor.Black)
  | 7, 0 => some (PieceType.King, PieceColor.White)
  | 0, 0 => some (PieceType.King, PieceColor.Black)
  | _, _ => none

def gameEP : Game :=
  { game_board :=
      { board := boardEP
        move_history := [{ piece_type := PieceType.Pawn
                           piece_color := PieceColor.Black
                           from_sq := ⟨1, 4⟩
                           to_sq := ⟨3, 4⟩ }]
        board_history := [initialBoard, boardEP]
        consecutive_non_pawn_or_capture := 0
        taken_pieces := [] }
    ui := UI.default
    player_turn := PieceColor.White
    game_state := GameState.Playing }

/-- Mid-promotion position: a White pawn has just reached the back rank on
(0,5); the turn has already been passed to Black and the state is
Promotion. -/
def boardPromo : Board := fun i j =>
  match i.val, j.val with
  | 0, 5 => some (PieceType.Pawn, PieceColor.White)
  | 7, 4 => some (PieceType.King, PieceColor.White)
  | 0, 0 => some (PieceType.King, PieceColor.Black)
  | _, _ => none

def gamePromo : Game :=
  { game_board :=
      { board := boardPromo
        move_history := [{ piece_type := PieceType.Pawn
                           piece_color := PieceColor.White
                           from_sq := ⟨1, 5⟩
                           to_sq := ⟨0, 5⟩ }]
        board_history := [initialBoard, boardPromo]
        consecutive_non_pawn_or_capture := 0
        taken_pieces := [] }
    ui := UI.default
    player_turn := PieceColor.Black
    game_state := GameState.Promotion }

/-- A checkmated position with White to move: White king on (7,7) is mated
by the Black queen on (6,6) protected by the Black king on (5,5). -/
def boardMate : Board := fun i j =>
  match i.val, j.val with
  | 7, 7 => some (PieceType.King, PieceColor.White)
  | 6, 6 => some (PieceType.Queen, PieceColor.Black)
  | 5, 5 => some (PieceType.King, PieceColor.Black)
  | _, _ => none

def gameMate : Game :=
  { game_board :=
      { board := boardMate
        move_history := []
        board_history := [boardMate]
        consecutive_non_pawn_or_capture := 0
        taken_pieces := [] }
    ui := UI.default
    player_turn := PieceColor.White
    game_state := GameState.Checkmate }

def gameCursorOne : Game :=
  { Game.default with ui := { UI.default with promotion_cursor := 1 } }

theorem boardGet_boardSet (b : Board) (r1 c1 r c : Nat) (p : Option (PieceType × PieceColor)) :
    boardGet (boardSet b r1 c1 p) r c =
      if r = r1 ∧ c = c1 ∧ r < 8 ∧ c < 8 then p else boardGet b r c := by
  unfold boardGet boardSet
  by_cases hb : r < 8 ∧ c < 8
  · rw [dif_pos hb, dif_pos hb]
    by_cases he : r = r1 ∧ c = c1
    · rw [if_pos he, if_pos ⟨he.1, he.2, hb.1, hb.2⟩]
    · rw [if_neg he, if_neg (by tauto)]
  · rw [dif_neg hb, dif_neg hb, if_neg (by tauto)]

theorem boardGetC_some_bounds (b : Board) (c : Coord) (p : PieceType × PieceColor)
    (h : boardGetC b c = some p) : c.row < 8 ∧ c.col < 8 := by
  unfold boardGetC boardGet at h
  by_cases hb : c.row < 8 ∧ c.col < 8
  · exact hb
  · rw [dif_neg hb] at h
    exact absurd h (by simp)

theorem boardGetC_invalid (b : Board) (c : Coord) (h : c.is_valid = false) :
    boardGetC b c = none := by
  unfold boardGetC boardGet
  rw [dif_neg]
  intro hb
  simp [Coord.is_valid, hb.1, hb.2] at h

theorem mem_allCoords_isValid (a : Coord) (h : a ∈ allCoords) : a.is_valid = true := by
  simp only [allCoords, List.mem_map, List.mem_range] at h
  obtain ⟨n, hn, rfl⟩ := h
  simp only [Coord.is_valid, Bool.and_eq_true, decide_eq_true_eq]
  omega

theorem mem_authorized_isValid (gb : GameBoard) (player : PieceColor) (fm dst : Coord)
    (h : dst ∈ gb.get_authorized_positions player fm) : dst.is_valid = true := by
  unfold GameBoard.get_authorized_positions at h
  rcases hb : boardGetC gb.board fm with _ | p
  · rw [hb] at h
    simp at h
  · rw [hb] at h
    dsimp only at h
    by_cases hp : p.2 = player
    · rw [if_pos hp] at h
      exact mem_allCoords_isValid dst (List.mem_filter.mp (List.mem_filter.mp h).1).1
    · rw [if_neg hp] at h
      simp at h

theorem promotionPieceOf_isSome (c : Int) (h0 : 0 ≤ c) (h3 : c ≤ 3) :
    (promotionPieceOf c).isSome = true := by
  have : c = 0 ∨ c = 1 ∨ c = 2 ∨ c = 3 := by omega
  rcases this with rfl | rfl | rfl | rfl <;> rfl

/-- C9: at game start, Opponent::new with no designated color defaults to
Black; for every color argument the resulting opponent_will_move holds iff
the resulting color is White, and game_started is false. -/
theorem opponent_new_defaults :
    Opponent.new none =
      { opponent_will_move := false
        color := PieceColor.Black
        game_started := false } ∧
    (∀ co : Option PieceColor,
      (Opponent.new co).game_started = false ∧
      ((Opponent.new co).opponent_will_move = true ↔
        (Opponent.new co).color = PieceColor.White)) := by
  refine ⟨rfl, ?_⟩
  intro co
  rcases co with _ | c
  · simp [Opponent.new]
  · cases c <;> simp [Opponent.new]

/-- C10: switch_player_turn always flips the player to move, changes nothing
else, and is an involution. -/
theorem switch_player_turn_involution (g : Game) :
    g.switch_player_turn.player_turn = oppositeColor g.player_turn ∧
    g.switch_player_turn.game_board = g.game_board ∧
    g.switch_player_turn.ui = g.ui ∧
    g.switch_player_turn.game_state = g.game_state ∧
    g.switch_player_turn.switch_player_turn = g := by
  obtain ⟨gb, ui, pt, st⟩ := g
  cases pt <;> simp [Game.switch_player_turn, oppositeColor]

/-- C8: the promotion selector values 0, 1, 2, 3 map to Queen, Rook, Bishop,
Knight; any other value reaches the aborting branch (modelled as `none`,
never clamped); under the bounded-selector precondition promote_piece always
succeeds. -/
theorem promotion_selector_mapping :
    (promotionPieceOf 0 = some PieceType.Queen ∧
     promotionPieceOf 1 = some PieceType.Rook ∧
     promotionPieceOf 2 = some PieceType.Bishop ∧
     promotionPieceOf 3 = some PieceType.Knight) ∧
    (∀ c : Int, c < 0 ∨ 3 < c → promotionPieceOf c = none) ∧
    (∀ g : Game, 0 ≤ g.ui.promotion_cursor → g.ui.promotion_cursor ≤ 3 →
      (g.promote_piece).isSome = true) := by
  refine ⟨⟨rfl, rfl, rfl, rfl⟩, ?_, ?_⟩
  · intro c h
    unfold promotionPieceOf
    rw [if_neg (by omega), if_neg (by omega), if_neg (by omega), if_neg (by omega)]
  · intro g h0 h3
    unfold Game.promote_piece
    rcases hl : g.game_board.move_history.getLast? with _ | last_move
    · simp
    · have hs := promotionPieceOf_isSome g.ui.promotion_cursor h0 h3
      rcases hp : promotionPieceOf g.ui.promotion_cursor with _ | np
      · rw [hp] at hs
        simp at hs
      · simp [hp]

/-- C8 witness: selector 1 at a concrete game maps to Rook and promote_piece
succeeds; selector 5 reaches the aborting branch. -/
theorem promotion_selector_mapping_witness :
    promotionPieceOf 1 = some PieceType.Rook ∧
    promotionPieceOf 5 = none ∧
    ((5 : Int) < 0 ∨ (3 : Int) < 5) ∧
    (0 : Int) ≤ gameCursorOne.ui.promotion_cursor ∧
    gameCursorOne.ui.promotion_cursor ≤ (3 : Int) ∧
    (gameCursorOne.promote_piece).isSome = true :=
  ⟨promotion_selector_mapping.1.2.1,
   promotion_selector_mapping.2.1 5 (by decide),
   by decide, by decide, by decide,
   promotion_selector_mapping.2.2 gameCursorOne (by decide) (by decide)⟩

/-- C5: the state recomputed by update_game_state after a completed ply or a
promotion finalization (which always reaches it in the Playing state, or in
the Draw state with is_draw holding when already_selected_cell_action set
Draw early) is Checkmate first, else Draw, else Promotion, else Playing; in
particular a simultaneous promotion and checkmate or draw resolves to
Checkmate or Draw, never Promotion. -/
theorem update_game_state_priority (g : Game)
    (h : g.game_state = GameState.Playing ∨
      (g.game_state = GameState.Draw ∧ g.game_board.is_draw g.player_turn = true)) :
    g.update_game_state.game_state =
      (if g.game_board.is_checkmate g.player_turn = true then GameState.Checkmate
       else if g.game_board.is_draw g.player_turn = true then GameState.Draw
       else if g.game_board.is_latest_move_promotion = true then GameState.Promotion
       else GameState.Playing) := by
  unfold Game.update_game_state
  rcases h with h | ⟨h, hd⟩
  · by_cases c1 : g.game_board.is_checkmate g.player_turn = true
    · simp [c1]
    · by_cases c2 : g.game_board.is_draw g.player_turn = true
      · simp [c1, c2]
      · by_cases c3 : g.game_board.is_latest_move_promotion = true
        · simp [c1, c2, c3]
        · simp [c1, c2, c3, h]
  · by_cases c1 : g.game_board.is_checkmate g.player_turn = true
    · simp [c1]
    · simp [c1, hd]

/-- C5 witness: the default game is in the Playing state, and the theorem
applies to it. -/
theorem update_game_state_priority_witness :
    (Game.default.game_state = GameState.Playing ∨
      (Game.default.game_state = GameState.Draw ∧
        Game.default.game_board.is_draw Game.default.player_turn = true)) ∧
    Game.default.update_game_state.game_state =
      (if Game.default.game_board.is_checkmate Game.default.player_turn = true then
        GameState.Checkmate
       else if Game.default.game_board.is_draw Game.default.player_turn = true then
        GameState.Draw
       else if Game.default.game_board.is_latest_move_promotion = true then
        GameState.Promotion
       else GameState.Playing) :=
  ⟨Or.inl rfl, update_game_state_priority Game.default (Or.inl rfl)⟩

theorem flip_ite_collapse (gx : Game) :
    (if !(gx.game_board.is_draw gx.player_turn) &&
        !(gx.game_board.is_checkmate gx.player_turn) then
      { gx with game_board := gx.game_board.flip_the_board } else gx) = gx := by
  split <;> rfl

/-- C6: board_history stays one longer than move_history: execute_move, when
it proceeds, appends exactly one entry to each history, it preserves the
invariant in every case, and promote_piece (under the invariant) changes
neither length. -/
theorem history_length_invariant :
    (∀ (g : Game) (fm dst : Coord),
      fm.is_valid = true → dst.is_valid = true →
      (g.game_board.get_piece_type fm).isSome = true →
      (g.execute_move fm dst).game_board.move_history.length =
        g.game_board.move_history.length + 1 ∧
      (g.execute_move fm dst).game_board.board_history.length =
        g.game_board.board_history.length + 1) ∧
    (∀ (g : Game) (fm dst : Coord),
      g.game_board.board_history.length = g.game_board.move_history.length + 1 →
      (g.execute_move fm dst).game_board.board_history.length =
        (g.execute_move fm dst).game_board.move_history.length + 1) ∧
    (∀ g : Game,
      g.game_board.board_history.length = g.game_board.move_history.length + 1 →
      ((g.promote_piece).map fun g2 =>
        (g2.game_board.move_history.length, g2.game_board.board_history.length)) =
      ((g.promote_piece).map fun _ =>
        (g.game_board.move_history.length, g.game_board.board_history.length))) := by
  have hexec : ∀ (g : Game) (fm dst : Coord),
      fm.is_valid = true → dst.is_valid = true →
      (g.game_board.get_piece_type fm).isSome = true →
      (g.execute_move fm dst).game_board.move_history.length =
        g.game_board.move_history.length + 1 ∧
      (g.execute_move fm dst).game_board.board_history.length =
        g.game_board.board_history.length + 1 := by
    intro g fm dst h1 h2 h3
    obtain ⟨pt, hpt⟩ := Option.isSome_iff_exists.mp h3
    unfold Game.execute_move
    simp [h1, h2, hpt]
  refine ⟨hexec, ?_, ?_⟩
  · intro g fm dst hinv
    by_cases h1 : fm.is_valid = true
    · by_cases h2 : dst.is_valid = true
      · rcases h3 : g.game_board.get_piece_type fm with _ | pt
        · unfold Game.execute_move
          simp [h1, h2, h3, hinv]
        · obtain ⟨ha, hb⟩ := hexec g fm dst h1 h2 (by rw [h3]; rfl)
          omega
      · unfold Game.execute_move
        have : dst.is_valid = false := by
          cases hd : dst.is_valid
          · rfl
          · exact absurd hd h2
        simp [this, hinv]
    · unfold Game.execute_move
      have : fm.is_valid = false := by
        cases hd : fm.is_valid
        · rfl
        · exact absurd hd h1
      simp [this, hinv]
  · intro g hinv
    unfold Game.promote_piece
    rcases hl : g.game_board.move_history.getLast? with _ | last_move
    · simp only [Option.map_some']
      split <;> rfl
    · rcases hp : promotionPieceOf g.ui.promotion_cursor with _ | np
      · simp [hp]
      · have hmh : g.game_board.move_history ≠ [] := by
          intro hc
          rw [hc] at hl
          simp at hl
        have hlen : 0 < g.game_board.move_history.length := List.length_pos.mpr hmh
        simp only [hp, Option.map_some']
        split <;>
          · simp [GameBoard.flip_the_board, List.length_append, List.length_dropLast]
            omega

/-- C6 witness: in the default game the invariant holds, the pawn move from
(6,4) to (4,4) proceeds and appends one entry to each history, and
promote_piece on the mid-promotion game preserves both lengths. -/
theorem history_length_invariant_witness :
    ((⟨6, 4⟩ : Coord).is_valid = true ∧ (⟨4, 4⟩ : Coord).is_valid = true ∧
      (Game.default.game_board.get_piece_type ⟨6, 4⟩).isSome = true ∧
      (Game.default.execute_move ⟨6, 4⟩ ⟨4, 4⟩).game_board.move_history.length =
        Game.default.game_board.move_history.length + 1 ∧
      (Game.default.execute_move ⟨6, 4⟩ ⟨4, 4⟩).game_board.board_history.length =
        Game.default.game_board.board_history.length + 1) ∧
    (Game.default.game_board.board_history.length =
        Game.default.game_board.move_history.length + 1 ∧
      (Game.default.execute_move ⟨6, 4⟩ ⟨4, 4⟩).game_board.board_history.length =
        (Game.default.execute_move ⟨6, 4⟩ ⟨4, 4⟩).game_board.move_history.length + 1) ∧
    (gamePromo.game_board.board_history.length =
        gamePromo.game_board.move_history.length + 1 ∧
      ((gamePromo.promote_piece).map fun g2 =>
        (g2.game_board.move_history.length, g2.game_board.board_history.length)) =
      ((gamePromo.promote_piece).map fun _ =>
        (gamePromo.game_board.move_history.length,
          gamePromo.game_board.board_history.length))) :=
  ⟨⟨by decide, by decide, by decide,
    history_length_invariant.1 Game.default ⟨6, 4⟩ ⟨4, 4⟩ (by decide) (by decide) (by decide)⟩,
   ⟨by decide, history_length_invariant.2.1 Game.default ⟨6, 4⟩ ⟨4, 4⟩ (by decide)⟩,
   ⟨by decide, history_length_invariant.2.2 gamePromo (by decide)⟩⟩

/-- C2: applying a promotion choice to a game in the Promotion state with a
non-empty move history rewrites the last move-history entry's piece_type to
the chosen kind, replaces the landing square with the chosen piece of the
same color, replaces (pop then push) the last board snapshot, and preserves
both history lengths: no new ply is created. -/
theorem promotion_finalizes_in_place (g : Game) (last_move : PieceMove)
    (np : PieceType) (pcol : PieceColor)
    (_hstate : g.game_state = GameState.Promotion)
    (hlast : g.game_board.move_history.getLast? = some last_move)
    (hnp : promotionPieceOf g.ui.promotion_cursor = some np)
    (hcol : g.game_board.get_piece_color last_move.to_sq = some pcol)
    (hbh : g.game_board.board_history ≠ []) :
    ∃ g2, g.promote_piece = some g2 ∧
      g2.game_board.move_history.getLast? = some { last_move with piece_type := np } ∧
      boardGetC g2.game_board.board last_move.to_sq = some (np, pcol) ∧
      g2.game_board.board_history =
        g.game_board.board_history.dropLast ++ [g2.game_board.board] ∧
      g2.game_board.move_history.length = g.game_board.move_history.length ∧
      g2.game_board.board_history.length = g.game_board.board_history.length := by
  have hmh : g.game_board.move_history ≠ [] := by
    intro hc
    rw [hc] at hlast
    simp at hlast
  have hmlen : 0 < g.game_board.move_history.length := List.length_pos.mpr hmh
  have hblen : 0 < g.game_board.board_history.length := List.length_pos.mpr hbh
  obtain ⟨q, hq, hq2⟩ := Option.map_eq_some'.mp hcol
  have hbounds := boardGetC_some_bounds _ _ _ hq
  unfold Game.promote_piece
  simp only [hlast, hnp, hcol, Option.map_some']
  split <;>
    · refine ⟨_, rfl, ?_, ?_, ?_, ?_, ?_⟩
      · simp [GameBoard.flip_the_board, List.getLast?_concat]
      · simp only [GameBoard.flip_the_board, boardGetC, boardGet_boardSet]
        simp [hbounds.1, hbounds.2]
      · rfl
      · simp [GameBoard.flip_the_board, List.length_append, List.length_dropLast]
        omega
      · simp [GameBoard.flip_the_board, List.length_append, List.length_dropLast]
        omega

/-- C2 witness: the mid-promotion game gamePromo with selector 0 promotes the
pawn on (0,5) to a Queen in place. -/
theorem promotion_finalizes_in_place_witness :
    (gamePromo.game_state = GameState.Promotion ∧
      gamePromo.game_board.move_history.getLast? =
        some { piece_type := PieceType.Pawn, piece_color := PieceColor.White,
               from_sq := ⟨1, 5⟩, to_sq := ⟨0, 5⟩ } ∧
      promotionPieceOf gamePromo.ui.promotion_cursor = some PieceType.Queen ∧
      gamePromo.game_board.get_piece_color ⟨0, 5⟩ = some PieceColor.White ∧
      gamePromo.game_board.board_history ≠ ([] : List Board)) ∧
    ∃ g2, gamePromo.promote_piece = some g2 ∧
      g2.game_board.move_history.getLast? =
        some { piece_type := PieceType.Queen, piece_color := PieceColor.White,
               from_sq := ⟨1, 5⟩, to_sq := ⟨0, 5⟩ } ∧
      boardGetC g2.game_board.board ⟨0, 5⟩ = some (PieceType.Queen, PieceColor.White) ∧
      g2.game_board.board_history =
        gamePromo.game_board.board_history.dropLast ++ [g2.game_board.board] ∧
      g2.game_board.move_history.length = gamePromo.game_board.move_history.length ∧
      g2.game_board.board_history.length = gamePromo.game_board.board_history.length :=
  ⟨⟨rfl, by decide, by decide, by decide, List.cons_ne_nil _ _⟩,
   promotion_finalizes_in_place gamePromo
     { piece_type := PieceType.Pawn, piece_color := PieceColor.White,
       from_sq := ⟨1, 5⟩, to_sq := ⟨0, 5⟩ }
     PieceType.Queen PieceColor.White rfl (by decide) (by decide) (by decide)
     (List.cons_ne_nil _ _)⟩

/-- C7: Checkmate and Draw are terminal: a cell click on a game whose label
is consistent with its position changes nothing (the state recomputation
reproduces the same state), a mouse board click returns early, and only
App::restart, which replaces the whole game by the default starting game,
leaves these states. -/
theorem terminal_states_absorb :
    (∀ g : Game,
      (g.game_state = GameState.Checkmate ∧
        g.game_board.is_checkmate g.player_turn = true) ∨
      (g.game_state = GameState.Draw ∧
        g.game_board.is_checkmate g.player_turn = false ∧
        g.game_board.is_draw g.player_turn = true) →
      g.handle_cell_click = some g) ∧
    (∀ (g : Game) (coords : Coord),
      g.game_state = GameState.Checkmate ∨ g.game_state = GameState.Draw →
      g.mouse_board_click coords = some g) ∧
    (∀ a : App, a.restart.game = Game.default) := by
  refine ⟨?_, ?_, fun a => rfl⟩
  · intro g h
    obtain ⟨gb, ui, pt, st⟩ := g
    rcases h with ⟨hs, hc⟩ | ⟨hs, hcm, hd⟩
    · subst hs
      simp [Game.handle_cell_click, Game.update_game_state, hc]
    · subst hs
      simp [Game.handle_cell_click, Game.update_game_state, hcm, hd]
  · intro g coords h
    rcases h with h | h <;> simp [Game.mouse_board_click, h]

/-- C7 witness: the concrete mated game gameMate is labelled Checkmate, its
position is checkmate for the side to move, and both entry points leave it
unchanged. -/
theorem terminal_states_absorb_witness :
    (gameMate.game_state = GameState.Checkmate ∧
      gameMate.game_board.is_checkmate gameMate.player_turn = true) ∧
    gameMate.handle_cell_click = some gameMate ∧
    gameMate.mouse_board_click ⟨0, 0⟩ = some gameMate :=
  ⟨⟨rfl, by decide⟩,
   terminal_states_absorb.1 gameMate (Or.inl ⟨rfl, by decide⟩),
   terminal_states_absorb.2.1 gameMate ⟨0, 0⟩ (Or.inl rfl)⟩

/-- C1: an illegal move intent is a silent no-op: execute_move returns the
game unchanged when a coordinate is invalid or the origin holds no piece,
and a mouse-submitted intent whose origin is invalid or empty, or whose
destination is not among the authorized positions of the origin, leaves the
board, both histories, the halfmove counter, the player to move and the
GameState exactly as they were, surfacing no error. -/
theorem move_intent_rejected_silently :
    (∀ (g : Game) (fm dst : Coord),
      (fm.is_valid = false ∨ dst.is_valid = false ∨
        g.game_board.get_piece_type fm = none) →
      g.execute_move fm dst = g) ∧
    (∀ (g : Game) (coords : Coord),
      (g.ui.selected_coordinates.is_valid = false ∨ coords.is_valid = false ∨
        g.game_board.get_piece_type g.ui.selected_coordinates = none ∨
        coords ∉ g.game_board.get_authorized_positions g.player_turn
          g.ui.selected_coordinates) →
      ∃ g2, g.mouse_board_click coords = some g2 ∧
        g2.game_board.board = g.game_board.board ∧
        g2.game_board.move_history = g.game_board.move_history ∧
        g2.game_board.board_history = g.game_board.board_history ∧
        g2.game_board.consecutive_non_pawn_or_capture =
          g.game_board.consecutive_non_pawn_or_capture ∧
        g2.player_turn = g.player_turn ∧
        g2.game_state = g.game_state) := by
  constructor
  · intro g fm dst h
    unfold Game.execute_move
    rcases h with h | h | h
    · simp [h]
    · simp [h]
    · by_cases h1 : (!fm.is_valid || !dst.is_valid) = true
      · simp [h1]
      · simp [h1, h]
  · intro g coords h
    by_cases hterm : g.game_state = GameState.Checkmate ∨ g.game_state = GameState.Draw
    · exact ⟨g, by simp [Game.mouse_board_click, hterm], rfl, rfl, rfl, rfl, rfl, rfl⟩
    · have hrej : ¬(coords ∈ g.game_board.get_authorized_positions g.player_turn
          g.ui.selected_coordinates ∧
          (g.game_board.get_piece_color g.ui.selected_coordinates).isSome = true) := by
        rintro ⟨hmem, hsome⟩
        rcases h with h | h | h | h
        · have hnone : boardGetC g.game_board.board g.ui.selected_coordinates = none :=
            boardGetC_invalid _ _ h
          simp [GameBoard.get_piece_color, hnone] at hsome
        · have hv := mem_authorized_isValid _ _ _ _ hmem
          rw [h] at hv
          exact absurd hv (by simp)
        · have hnone : boardGetC g.game_board.board g.ui.selected_coordinates = none := by
            have := h
            unfold GameBoard.get_piece_type at this
            exact Option.map_eq_none'.mp this
          simp [GameBoard.get_piece_color, hnone] at hsome
        · exact h hmem
      refine ⟨{ g with ui :=
        { g.ui with mouse_used := true, selected_coordinates := coords } },
        ?_, rfl, rfl, rfl, rfl, rfl, rfl⟩
      unfold Game.mouse_board_click
      rw [if_neg hterm]
      dsimp only
      rw [if_neg hrej]

/-- C1 witness: in the default game nothing is selected, so the selected
square holds no piece and a click on (3,3) is rejected silently; likewise an
invalid origin makes execute_move a no-op. -/
theorem move_intent_rejected_silently_witness :
    (((⟨9, 9⟩ : Coord).is_valid = false ∨ (⟨3, 3⟩ : Coord).is_valid = false ∨
        Game.default.game_board.get_piece_type ⟨9, 9⟩ = none) ∧
      Game.default.execute_move ⟨9, 9⟩ ⟨3, 3⟩ = Game.default) ∧
    ((Game.default.ui.selected_coordinates.is_valid = false ∨
        (⟨3, 3⟩ : Coord).is_valid = false ∨
        Game.default.game_board.get_piece_type Game.default.ui.selected_coordinates = none ∨
        (⟨3, 3⟩ : Coord) ∉ Game.default.game_board.get_authorized_positions
          Game.default.player_turn Game.default.ui.selected_coordinates) ∧
      ∃ g2, Game.default.mouse_board_click ⟨3, 3⟩ = some g2 ∧
        g2.game_board.board = Game.default.game_board.board ∧
        g2.game_board.move_history = Game.default.game_board.move_history ∧
        g2.game_board.board_history = Game.default.game_board.board_history ∧
        g2.game_board.consecutive_non_pawn_or_capture =
          Game.default.game_board.consecutive_non_pawn_or_capture ∧
        g2.player_turn = Game.default.player_turn ∧
        g2.game_state = Game.default.game_state) :=
  ⟨⟨Or.inl (by decide),
    move_intent_rejected_silently.1 Game.default ⟨9, 9⟩ ⟨3, 3⟩ (Or.inl (by decide))⟩,
   ⟨Or.inr (Or.inr (Or.inl (by decide))),
    move_intent_rejected_silently.2 Game.default ⟨3, 3⟩
      (Or.inr (Or.inr (Or.inl (by decide))))⟩⟩

/-- C4: when the applied intent is recognized as an en-passant capture, the
passed enemy pawn, one rank behind the destination in the mover's direction
of travel (the mover travels toward row 0, so at row dst.row + 1, same
column), is removed, and the capturing pawn ends on the destination
square. -/
theorem en_passant_removes_passed_pawn (g : Game) (fm dst : Coord)
    (h : g.game_board.is_latest_move_en_passant g.player_turn fm dst = true) :
    boardGetC (g.execute_move fm dst).game_board.board ⟨dst.row + 1, dst.col⟩ = none ∧
    boardGetC (g.execute_move fm dst).game_board.board dst =
      some (PieceType.Pawn, g.player_turn) ∧
    boardGetC (g.execute_move fm dst).game_board.board fm = none := by
  have h' := h
  unfold GameBoard.is_latest_move_en_passant at h'
  simp only [Bool.and_eq_true, decide_eq_true_eq] at h'
  obtain ⟨⟨⟨⟨⟨h1, h2⟩, h3⟩, h4⟩, h5⟩, -⟩ := h'
  have hbf := boardGetC_some_bounds _ _ _ h1
  have hbe : dst.row + 1 < 8 ∧ dst.col < 8 := boardGetC_some_bounds _ _ _ h5
  have hfv : fm.is_valid = true := by
    simp only [Coord.is_valid, Bool.and_eq_true, decide_eq_true_eq]
    omega
  have hdv : dst.is_valid = true := by
    simp only [Coord.is_valid, Bool.and_eq_true, decide_eq_true_eq]
    omega
  have hcastle : g.game_board.is_latest_move_castling g.player_turn fm dst = false := by
    unfold GameBoard.is_latest_move_castling
    simp [h1]
  have hpt : g.game_board.get_piece_type fm = some PieceType.Pawn := by
    simp [GameBoard.get_piece_type, h1]
  unfold Game.execute_move
  rw [if_neg (by rw [hfv, hdv]; simp)]
  rw [hpt]
  dsimp only
  unfold GameBoard.apply_move_board
  rw [if_pos h]
  rw [if_neg (by rw [hcastle]; simp)]
  dsimp only
  have hcol : dst.col ≠ fm.col := by omega
  refine ⟨?_, ?_, ?_⟩
  · simp only [boardGetC, boardGet_boardSet]
    rw [if_neg (by simp [hcol]), if_neg (by simp),
      if_pos ⟨trivial, trivial, by omega, by omega⟩]
  · simp only [boardGetC, boardGet_boardSet]
    rw [if_neg (by omega), if_pos ⟨trivial, trivial, by omega, by omega⟩,
      if_neg (by omega)]
    exact h1
  · simp only [boardGetC, boardGet_boardSet]
    rw [if_pos ⟨trivial, trivial, by omega, by omega⟩]

/-- C4 witness: in gameEP the White pawn on (3,3) captures en passant onto
(2,4); the passed Black pawn on (3,4) is removed and the capturing pawn ends
on (2,4). -/
theorem en_passant_removes_passed_pawn_witness :
    gameEP.game_board.is_latest_move_en_passant gameEP.player_turn ⟨3, 3⟩ ⟨2, 4⟩ = true ∧
    (boardGetC (gameEP.execute_move ⟨3, 3⟩ ⟨2, 4⟩).game_board.board ⟨3, 4⟩ = none ∧
     boardGetC (gameEP.execute_move ⟨3, 3⟩ ⟨2, 4⟩).game_board.board ⟨2, 4⟩ =
       some (PieceType.Pawn, gameEP.player_turn) ∧
     boardGetC (gameEP.execute_move ⟨3, 3⟩ ⟨2, 4⟩).game_board.board ⟨3, 3⟩ = none) :=
  ⟨by decide, en_passant_removes_passed_pawn gameEP ⟨3, 3⟩ ⟨2, 4⟩ (by decide)⟩

/-- C3 counterexample: in gameCastleK White castles kingside, the intent
being (king square (7,4), rook square (7,7)); the side castled toward is the
higher-column side, so the square immediately adjacent to the king's new
position (7,6) on that side is (7,7) — but after the ply that square is
empty, and the rook stands on (7,5), the side the king came from.  The claim
as stated (rook adjacent on the side castled toward) is therefore false at
this input. -/
theorem castling_rook_side_counterexample :
    gameCastleK.game_board.is_latest_move_castling gameCastleK.player_turn
      ⟨7, 4⟩ ⟨7, 7⟩ = true ∧
    boardGetC (gameCastleK.execute_move ⟨7, 4⟩ ⟨7, 7⟩).game_board.board ⟨7, 6⟩ =
      some (PieceType.King, PieceColor.White) ∧
    boardGetC (gameCastleK.execute_move ⟨7, 4⟩ ⟨7, 7⟩).game_board.board ⟨7, 7⟩ = none ∧
    boardGetC (gameCastleK.execute_move ⟨7, 4⟩ ⟨7, 7⟩).game_board.board ⟨7, 5⟩ =
      some (PieceType.Rook, PieceColor.White) := by
  decide

/-- C3 amended: when the applied intent is recognized as castling (the
intent being (king square, rook square)), the single ply relocates both
pieces atomically: the king ends two columns from its origin column in the
direction of the horizontal displacement (the sign of dst.col - fm.col), the
rook ends on the square immediately adjacent to the king's new position on
the side the king came from (one column from the king's origin, between the
king's origin and its landing square), and both the `dst` square (the rook's
corner) and the `fm` square are emptied. -/
theorem castling_relocates_king_and_rook (g : Game) (fm dst : Coord)
    (h : g.game_board.is_latest_move_castling g.player_turn fm dst = true) :
    boardGetC (g.execute_move fm dst).game_board.board
      ⟨dst.row, ((fm.col : Int) +
        (if 0 < (fm.col : Int) - (dst.col : Int) then -1 else 1) * 2).toNat⟩ =
      some (PieceType.King, g.player_turn) ∧
    boardGetC (g.execute_move fm dst).game_board.board
      ⟨dst.row, ((fm.col : Int) +
        (if 0 < (fm.col : Int) - (dst.col : Int) then -1 else 1)).toNat⟩ =
      some (PieceType.Rook, g.player_turn) ∧
    boardGetC (g.execute_move fm dst).game_board.board dst = none ∧
    boardGetC (g.execute_move fm dst).game_board.board fm = none := by
  have h' := h
  unfold GameBoard.is_latest_move_castling at h'
  simp only [Bool.and_eq_true, decide_eq_true_eq] at h'
  obtain ⟨⟨⟨⟨⟨⟨⟨c1, c2⟩, c3⟩, c4⟩, -⟩, -⟩, -⟩, -⟩ := h'
  obtain ⟨hfr, hdr⟩ := c3
  obtain ⟨hfc, hdc⟩ := c4
  have hfv : fm.is_valid = true := by
    simp only [Coord.is_valid, Bool.and_eq_true, decide_eq_true_eq]
    omega
  have hdv : dst.is_valid = true := by
    simp only [Coord.is_valid, Bool.and_eq_true, decide_eq_true_eq]
    omega
  have hEP : g.game_board.is_latest_move_en_passant g.player_turn fm dst = false := by
    unfold GameBoard.is_latest_move_en_passant
    simp [c1]
  have hpt : g.game_board.get_piece_type fm = some PieceType.King := by
    simp [GameBoard.get_piece_type, c1]
  simp only [boardGetC] at c1
  unfold Game.execute_move
  rw [if_neg (by rw [hfv, hdv]; simp)]
  rw [hpt]
  dsimp only
  unfold GameBoard.apply_move_board
  rw [if_pos h, hEP]
  simp only [Bool.false_eq_true, if_false]
  simp only [boardGetC]
  rw [hfr] at c1 ⊢
  rw [hdr]
  rcases hfc with hfc | hfc <;> rcases hdc with hdc | hdc <;>
    · rw [hfc] at c1 ⊢
      rw [hdc]
      norm_num
      simp only [boardGet_boardSet]
      norm_num
      simp [Int.toNat_ofNat, c1]

/-- C3 witness: in gameCastleQ White castles queenside, intent
((7,4), (7,0)); the king lands on (7,2), the rook on (7,3), and both (7,0)
and (7,4) are emptied. -/
theorem castling_relocates_king_and_rook_witness :
    gameCastleQ.game_board.is_latest_move_castling gameCastleQ.player_turn
      ⟨7, 4⟩ ⟨7, 0⟩ = true ∧
    (boardGetC (gameCastleQ.execute_move ⟨7, 4⟩ ⟨7, 0⟩).game_board.board
      ⟨(⟨7, 0⟩ : Coord).row, (((⟨7, 4⟩ : Coord).col : Int) +
        (if 0 < ((⟨7, 4⟩ : Coord).col : Int) - ((⟨7, 0⟩ : Coord).col : Int)
         then -1 else 1) * 2).toNat⟩ =
      some (PieceType.King, gameCastleQ.player_turn) ∧
    boardGetC (gameCastleQ.execute_move ⟨7, 4⟩ ⟨7, 0⟩).game_board.board
      ⟨(⟨7, 0⟩ : Coord).row, (((⟨7, 4⟩ : Coord).col : Int) +
        (if 0 < ((⟨7, 4⟩ : Coord).col : Int) - ((⟨7, 0⟩ : Coord).col : Int)
         then -1 else 1)).toNat⟩ =
      some (PieceType.Rook, gameCastleQ.player_turn) ∧
    boardGetC (gameCastleQ.execute_move ⟨7, 4⟩ ⟨7, 0⟩).game_board.board ⟨7, 0⟩ = none ∧
    boardGetC (gameCastleQ.execute_move ⟨7, 4⟩ ⟨7, 0⟩).game_board.board ⟨7, 4⟩ = none) :=
  ⟨by decide, castling_relocates_king_and_rook gameCastleQ ⟨7, 4⟩ ⟨7, 0⟩ (by decide)⟩
